import Mathlib

/-!
Shallow embedding of the form-pdf repository (TypeScript / Next.js).

Modelling conventions:
* TypeScript `number` is modelled as `ℚ` (the code performs only field
  operations, comparisons, `Math.max/min/round/abs` and `parseInt`; no
  float-specific behaviour is relied upon by the claims; `NaN`/`Infinity`
  are handled locally where the source can produce them).
* `undefined`-able fields (`x?:`) are modelled as `Option`.
* Fallible operations return `Except`/`Option`; JavaScript `try/catch`
  blocks become total functions (the per-element processing of the
  compositor contains no failing operation in the model).
* Effectful drawing (`page.drawText`, `page.drawLine` from pdf-lib) is
  modelled as emission of `DrawOp` values; the compositor returns the
  list of draw operations it performs.
* Definitions keep the source's names.  The sources modelled here are
  `src/lib/pdf-utils.ts`, `src/components/PDFViewer.tsx` (and its
  revision with snapping), `src/components/TextElement.tsx`, and the
  page component holding the text-element store.
-/

namespace FormPdf

/-! ### JavaScript primitives -/

/-- JavaScript `Math.round`: round half up, `Math.round x = ⌊x + 0.5⌋`. -/
def jsRound (q : ℚ) : ℤ := ⌊q + 1/2⌋

/-- `ToUint32` of the ECMAScript abstract operations (used by bitwise ops). -/
def toUint32 (n : ℤ) : ℤ := n.emod (2 ^ 32)

/-- `ToInt32` of the ECMAScript abstract operations. -/
def toInt32 (n : ℤ) : ℤ :=
  if toUint32 n < 2 ^ 31 then toUint32 n else toUint32 n - 2 ^ 32

/-- JavaScript signed right shift `n >> k` (arithmetic shift on int32). -/
def jsShr (n : ℤ) (k : ℕ) : ℤ := Int.fdiv (toInt32 n) (2 ^ k)

/-- JavaScript `n & 255`: low 8 bits of the int32 representation. -/
def jsAnd255 (n : ℤ) : ℤ := (toInt32 n).emod 256

/-- Value of a hexadecimal digit, `none` for a non-hex character. -/
def hexVal (c : Char) : Option ℕ :=
  if '0' ≤ c ∧ c ≤ '9' then some (c.toNat - '0'.toNat)
  else if 'a' ≤ c ∧ c ≤ 'f' then some (c.toNat - 'a'.toNat + 10)
  else if 'A' ≤ c ∧ c ≤ 'F' then some (c.toNat - 'A'.toNat + 10)
  else none

/-- Accumulate the value of a run of hex digits. -/
def hexDigitsVal (cs : List Char) : ℤ :=
  cs.foldl (fun a c => 16 * a + ((hexVal c).getD 0 : ℤ)) 0

/-- JavaScript `parseInt(s, 16)`: skip leading whitespace, optional sign,
optional `0x`/`0X`, then the longest run of hex digits; `none` models `NaN`
(no digit found). -/
def parseIntHex (s : String) : Option ℤ :=
  let cs := s.toList.dropWhile Char.isWhitespace
  let cs1 := if cs.head? = some '-' ∨ cs.head? = some '+' then cs.tail else cs
  let cs2 :=
    if cs1.head? = some '0' ∧ (cs1.tail.head? = some 'x' ∨ cs1.tail.head? = some 'X')
    then cs1.tail.tail else cs1
  let digits := cs2.takeWhile (fun c => (hexVal c).isSome)
  if digits.isEmpty then none
  else some ((if cs.head? = some '-' then -1 else 1) * hexDigitsVal digits)

/-- JavaScript `s.charAt(i)` restricted to in-range use sites. -/
def charAt (s : String) (i : ℕ) : Char := s.toList.getD i (Char.ofNat 0)

/-- Whether the first list begins the second one. -/
def listBegins : List Char → List Char → Bool
  | [], _ => true
  | _ :: _, [] => false
  | a :: as, b :: bs => a = b && listBegins as bs

/-- Whether the first list occurs as a contiguous segment of the second. -/
def listHasSeg (needle : List Char) : List Char → Bool
  | [] => needle.isEmpty
  | c :: cs => listBegins needle (c :: cs) || listHasSeg needle cs

/-- JavaScript `haystack.includes(needle)`. -/
def strHasSub (haystack needle : String) : Bool :=
  listHasSeg needle.toList haystack.toList

/-- JavaScript `s.toLowerCase()` (ASCII range suffices for this code). -/
def strToLower (s : String) : String := String.mk (s.toList.map Char.toLower)

/-- JavaScript `s.trim()`. -/
def strTrim (s : String) : String :=
  let l := s.toList.dropWhile Char.isWhitespace
  String.mk ((l.reverse.dropWhile Char.isWhitespace).reverse)

/-- JavaScript `s.split(' ')` at the character-list level. -/
def splitOnSpace : List Char → List (List Char)
  | [] => [[]]
  | c :: rest =>
    let r := splitOnSpace rest
    if c = ' ' then [] :: r
    else (c :: r.headD []) :: r.tail

/-- JavaScript `s.split(' ')`. -/
def splitWords (s : String) : List String := (splitOnSpace s.toList).map String.mk

/-- JavaScript `words.join(' ')`. -/
def joinWithSpace : List String → String
  | [] => ""
  | [w] => w
  | w :: rest => w ++ " " ++ joinWithSpace rest

/-! ### `src/lib/pdf-utils.ts`: colors -/

/-- An RGB triple as produced by `hexToRgb` (each channel `0..255`). -/
structure RGB where
  r : ℤ
  g : ℤ
  b : ℤ
deriving DecidableEq, Repr

/-- Preamble of `hexToRgb` of `src/lib/pdf-utils.ts` (lines 344-380):
the claims' color function.  `replace(/^#/,'')`
removes one leading `#`, then `trim()`.  Length 3: each character doubled and
parsed; length 6: one `parseInt` and bit extraction; any other length, or a
`NaN` parse, yields black.  (When the 6-digit `parseInt` is `NaN`, the
JavaScript bitwise operators map `NaN` to `0`, so the result is black there
as well; the model returns black directly.)  `sanitizeHex` is the
`hex.replace(/^#/, '').trim()` step (line 346). -/
def sanitizeHex (hex : String) : String :=
  strTrim (String.mk (if hex.toList.head? = some '#' then hex.toList.tail else hex.toList))

/-- Body of `hexToRgb`: length 3 doubles each digit, length 6 parses once
and extracts bytes, anything else (or a `NaN` channel) is black. -/
def hexToRgb (hex : String) : RGB :=
  let sanitized := sanitizeHex hex
  if sanitized.length = 0 then ⟨0, 0, 0⟩
  else if sanitized.length = 3 then
    let r := parseIntHex (String.mk [charAt sanitized 0, charAt sanitized 0])
    let g := parseIntHex (String.mk [charAt sanitized 1, charAt sanitized 1])
    let b := parseIntHex (String.mk [charAt sanitized 2, charAt sanitized 2])
    match r, g, b with
    | some rv, some gv, some bv => ⟨rv, gv, bv⟩
    | _, _, _ => ⟨0, 0, 0⟩
  else if sanitized.length = 6 then
    match parseIntHex sanitized with
    | some bigint => ⟨jsAnd255 (jsShr bigint 16), jsAnd255 (jsShr bigint 8), jsAnd255 bigint⟩
    | none => ⟨0, 0, 0⟩
  else ⟨0, 0, 0⟩

/-- The color actually handed to pdf-lib: `rgb(r/255, g/255, b/255)`
(compositor, line 198). -/
def normalizeRgb (c : RGB) : ℚ × ℚ × ℚ :=
  ((c.r : ℚ) / 255, (c.g : ℚ) / 255, (c.b : ℚ) / 255)

/-! ### `src/lib/pdf-utils.ts`: data model -/

/-- `textTransform` union type of the `TextElement` interface. -/
inductive TextTransform
  | noTransform
  | uppercase
  | lowercase
  | capitalize
deriving DecidableEq, Repr

/-- `textDecoration` union type of the `TextElement` interface. -/
inductive TextDecoration
  | noDecoration
  | underline
  | overline
  | lineThrough
deriving DecidableEq, Repr

/-- The `TextElement` interface of `src/lib/pdf-utils.ts` (lines 5-32).
Optional (`?:`) fields are `Option`; `textAlign`, `textShadow`,
`backgroundColor`, `borderRadius` and `padding` are carried but unused by
the compositor. -/
structure TextElement where
  id : String
  content : String
  x : ℚ
  y : ℚ
  fontSize : ℚ
  fontFamily : String
  color : String
  bold : Bool
  italic : Bool
  underline : Bool
  pageNumber : ℤ
  isPredefined : Option Bool := none
  letterSpacing : Option ℚ := none
  wordSpacing : Option ℚ := none
  lineHeight : Option ℚ := none
  textAlign : Option String := none
  textTransform : Option TextTransform := none
  textDecoration : Option TextDecoration := none
  fontWeight : Option ℚ := none
  fontStyle : Option String := none
  textShadow : Option String := none
  backgroundColor : Option String := none
  borderRadius : Option ℚ := none
  padding : Option ℚ := none
  opacity : Option ℚ := none
deriving DecidableEq, Repr

/-- `validateTextElement` (lines 490-514).  In the typed model the `typeof`
and `isFinite` checks always pass; the value checks remain. -/
def validateTextElement (e : TextElement) : Bool :=
  0 < e.id.length ∧ 0 ≤ e.x ∧ 0 ≤ e.y ∧ 0 < e.fontSize ∧
    0 < e.fontFamily.length ∧ 0 < e.color.length ∧ 0 < e.pageNumber

/-! ### `src/lib/pdf-utils.ts`: fonts -/

/-- The `StandardFonts` of pdf-lib that `getFontForFamily` can embed. -/
inductive StandardFont
  | TimesRoman | TimesRomanBold | TimesRomanItalic | TimesRomanBoldItalic
  | Courier | CourierBold | CourierOblique | CourierBoldOblique
  | Helvetica | HelveticaBold | HelveticaOblique | HelveticaBoldOblique
deriving DecidableEq, Repr

/-- `determinedBold` of `getFontForFamily` (line 39):
`fontWeight ? fontWeight >= 600 : isBold`.  A provided but zero
`fontWeight` is falsy in JavaScript and falls back to the legacy flag. -/
def determinedBold (fontWeight : Option ℚ) (isBold : Bool) : Bool :=
  match fontWeight with
  | some w => if w ≠ 0 then decide (600 ≤ w) else isBold
  | none => isBold

/-- `determinedItalic` of `getFontForFamily` (line 40):
`fontStyle ? fontStyle === 'italic' || fontStyle === 'oblique' : isItalic`.
A provided but empty string is falsy. -/
def determinedItalic (fontStyle : Option String) (isItalic : Bool) : Bool :=
  match fontStyle with
  | some s => if s ≠ "" then decide (s = "italic" ∨ s = "oblique") else isItalic
  | none => isItalic

/-- `getFontForFamily` (lines 35-68).  `embedFont` never fails in the model,
so the `catch` fallback to Helvetica is unreachable here. -/
def getFontForFamily (fontFamily : String) (isBold isItalic : Bool)
    (fontWeight : Option ℚ) (fontStyle : Option String) : StandardFont :=
  let family := strToLower fontFamily
  let dBold := determinedBold fontWeight isBold
  let dItalic := determinedItalic fontStyle isItalic
  if strHasSub family "times" ∨ strHasSub family "roman" then
    if dBold ∧ dItalic then .TimesRomanBoldItalic
    else if dBold then .TimesRomanBold
    else if dItalic then .TimesRomanItalic
    else .TimesRoman
  else if strHasSub family "courier" then
    if dBold ∧ dItalic then .CourierBoldOblique
    else if dBold then .CourierBold
    else if dItalic then .CourierOblique
    else .Courier
  else
    if dBold ∧ dItalic then .HelveticaBoldOblique
    else if dBold then .HelveticaBold
    else if dItalic then .HelveticaOblique
    else .Helvetica

/-! ### `src/lib/pdf-utils.ts`: width estimation -/

/-- `estimateTextWidth` (lines 414-428): a single per-family average ratio,
no per-character refinement. -/
def estimateTextWidth (text : String) (fontSize : ℚ) (fontFamily : String) : ℚ :=
  let family := strToLower fontFamily
  let avgCharWidth : ℚ :=
    if strHasSub family "courier" then fontSize * (6/10)
    else if strHasSub family "times" then fontSize * (5/10)
    else fontSize * (55/100)
  (text.length : ℚ) * avgCharWidth

/-- `estimateCharWidth` (lines 431-456): per-family ratio refined for the
narrow characters `i l t f` and the wide characters `m w M W` (no refinement
for Courier). -/
def estimateCharWidth (char : Char) (fontSize : ℚ) (fontFamily : String) : ℚ :=
  let family := strToLower fontFamily
  let charWidthRatio : ℚ :=
    if strHasSub family "courier" then 6/10
    else if strHasSub family "times" then
      if char = 'i' ∨ char = 'l' ∨ char = 't' ∨ char = 'f' then 3/10
      else if char = 'm' ∨ char = 'w' ∨ char = 'M' ∨ char = 'W' then 8/10
      else 5/10
    else
      if char = 'i' ∨ char = 'l' ∨ char = 't' ∨ char = 'f' then 3/10
      else if char = 'm' ∨ char = 'w' ∨ char = 'M' ∨ char = 'W' then 7/10
      else 55/100
  fontSize * charWidthRatio

/-! ### `src/lib/pdf-utils.ts`: compositor -/

/-- One page of a loaded pdf-lib document (`page.getSize()`). -/
structure PDFPage where
  width : ℚ
  height : ℚ
deriving DecidableEq, Repr

/-- A loaded pdf-lib `PDFDocument`; `getPageCount()` is `pages.length`. -/
structure PDFDoc where
  pages : List PDFPage
deriving DecidableEq, Repr

/-- A drawing call issued against a page: `page.drawText` or
`page.drawLine` with the arguments the source passes. -/
inductive DrawOp
  | text (pageIndex : ℕ) (content : String) (x y : ℚ) (size : ℚ)
      (font : StandardFont) (color : ℚ × ℚ × ℚ) (opacity : ℚ)
  | line (pageIndex : ℕ) (startX startY endX endY : ℚ) (thickness : ℚ)
      (color : ℚ × ℚ × ℚ) (opacity : ℚ)
deriving DecidableEq, Repr

/-- Manual offset constant of the compositor (line 136): `xOffset = -0.1`. -/
def xOffset : ℚ := -(1/10)

/-- Manual offset constant of the compositor (line 137): `yOffset = -4`. -/
def yOffset : ℚ := -4

/-- Baseline constant of the compositor (line 138): `0.85`. -/
def baselineMultiplier : ℚ := 85/100

/-- Edge-distance constant of the compositor (line 139): `0`. -/
def minMargin : ℚ := 0

/-- Draw-origin X (line 142): `Math.max(minMargin, element.x + xOffset)`. -/
def drawOriginX (elementX : ℚ) : ℚ := max minMargin (elementX + xOffset)

/-- Draw-origin Y (line 149):
`Math.max(minMargin, height - element.y - fontSize*baselineMultiplier + yOffset)`. -/
def drawOriginY (height elementY fontSize : ℚ) : ℚ :=
  max minMargin (height - elementY - fontSize * baselineMultiplier + yOffset)

/-- `capitalize` arm of the text-transform switch (lines 182-184):
`word.charAt(0).toUpperCase() + word.slice(1).toLowerCase()`. -/
def capitalizeWord (w : String) : String :=
  match w.toList with
  | [] => ""
  | c :: rest => String.mk (c.toUpper :: rest.map Char.toLower)

/-- The text-transform switch (lines 172-187), applied once to the content
before drawing.  An absent transform, or the `'none'` member, leaves the
content unchanged. -/
def applyTextTransform (tt : Option TextTransform) (content : String) : String :=
  match tt with
  | some .uppercase => String.mk (content.toList.map Char.toUpper)
  | some .lowercase => String.mk (content.toList.map Char.toLower)
  | some .capitalize =>
      joinWithSpace ((splitWords content).map capitalizeWord)
  | _ => content

/-- The `textOptions` record built at compositor lines 193-200. -/
structure TextOptions where
  x : ℚ
  y : ℚ
  size : ℚ
  font : StandardFont
  color : ℚ × ℚ × ℚ
  opacity : ℚ
deriving DecidableEq, Repr

/-- Character loop of the spacing path (lines 215-225): draw each character
at the running X, then advance by `estimateCharWidth + letterSpacing`.
Returns the emitted operations and the final running X. -/
def drawCharsLoop (pageIndex : ℕ) (opts : TextOptions) (fontSize : ℚ)
    (fontFamily : String) (letterSpacing : ℚ) :
    List Char → ℚ → List DrawOp × ℚ
  | [], currentX => ([], currentX)
  | c :: cs, currentX =>
    let op := DrawOp.text pageIndex (String.mk [c]) currentX opts.y opts.size
      opts.font opts.color opts.opacity
    let nextX := currentX + estimateCharWidth c fontSize fontFamily + letterSpacing
    let rest := drawCharsLoop pageIndex opts fontSize fontFamily letterSpacing cs nextX
    (op :: rest.1, rest.2)

/-- Word loop of the spacing path (lines 210-243): per word, either the
character loop (nonzero letter spacing) or one whole-word draw advanced by
`estimateTextWidth`; between words advance by space width plus word
spacing. -/
def drawWordsLoop (pageIndex : ℕ) (opts : TextOptions) (fontSize : ℚ)
    (fontFamily : String) (letterSpacing wordSpacing : ℚ) :
    List String → ℚ → List DrawOp
  | [], _ => []
  | word :: rest, currentX =>
    let drawn : List DrawOp × ℚ :=
      if letterSpacing ≠ 0 then
        drawCharsLoop pageIndex opts fontSize fontFamily letterSpacing word.toList currentX
      else
        ([DrawOp.text pageIndex word currentX opts.y opts.size opts.font
            opts.color opts.opacity],
          currentX + estimateTextWidth word fontSize fontFamily)
    let nextX :=
      if rest.isEmpty then drawn.2
      else drawn.2 + estimateCharWidth ' ' fontSize fontFamily + wordSpacing
    drawn.1 ++ drawWordsLoop pageIndex opts fontSize fontFamily letterSpacing wordSpacing rest nextX

/-- Per-element body of the compositor loop (lines 119-285): font choice,
draw origin, color, text transform, opacity, the draw call(s) (single run,
or the spacing path when either spacing is nonzero), then the decoration
line resolved with priority `textDecoration` over legacy `underline`.
The `try/catch` around this body is total in the model. -/
def processElement (pageIndex : ℕ) (page : PDFPage) (element : TextElement) :
    List DrawOp :=
  let font := getFontForFamily element.fontFamily element.bold element.italic
    element.fontWeight element.fontStyle
  let x := drawOriginX element.x
  let y := drawOriginY page.height element.y element.fontSize
  let color := normalizeRgb (hexToRgb element.color)
  let processedContent := applyTextTransform element.textTransform element.content
  let opacity := element.opacity.getD 1
  let textOptions : TextOptions := ⟨x, y, element.fontSize, font, color, opacity⟩
  let letterSpacing := element.letterSpacing.getD 0
  let wordSpacing := element.wordSpacing.getD 0
  let textOps :=
    if letterSpacing ≠ 0 ∨ wordSpacing ≠ 0 then
      drawWordsLoop pageIndex textOptions element.fontSize element.fontFamily
        letterSpacing wordSpacing (splitWords processedContent) x
    else
      [DrawOp.text pageIndex processedContent x y element.fontSize font color opacity]
  let textWidth := estimateTextWidth processedContent element.fontSize element.fontFamily
  let decoration : TextDecoration :=
    match element.textDecoration with
    | some d => d
    | none => if element.underline then .underline else .noDecoration
  let decOps : List DrawOp :=
    match decoration with
    | .underline =>
        [DrawOp.line pageIndex x (y - 2) (x + textWidth) (y - 2) 1 color opacity]
    | .lineThrough =>
        [DrawOp.line pageIndex x (y + element.fontSize * (3/10)) (x + textWidth)
          (y + element.fontSize * (3/10)) 1 color opacity]
    | .overline =>
        [DrawOp.line pageIndex x (y + element.fontSize) (x + textWidth)
          (y + element.fontSize) 1 color opacity]
    | .noDecoration => []
  textOps ++ decOps

/-- Insert a page number into an ascending list of page numbers. -/
def insertAscending (p : ℤ) : List ℤ → List ℤ
  | [] => [p]
  | q :: qs => if p ≤ q then p :: q :: qs else q :: insertAscending p qs

/-- The distinct page numbers of the batch, ascending — the iteration order
of `Object.entries` over the integer-keyed grouping record built at
lines 89-95. -/
def pageKeys (elements : List TextElement) : List ℤ :=
  elements.foldl
    (fun acc e => if e.pageNumber ∈ acc then acc else insertAscending e.pageNumber acc) []

/-- `generatePDFWithText` (lines 71-294).  `PDFDocument.load` failure is the
`none` document and is the only propagated error; elements are grouped by
page, pages outside `[1, pageCount]` are skipped whole, invalid elements are
skipped individually, and each surviving element contributes its draw
operations. -/
def generatePDFWithText (pdfDoc : Option PDFDoc) (elements : List TextElement) :
    Except String (List DrawOp) :=
  match pdfDoc with
  | none => .error "Failed to load PDF"
  | some doc =>
    .ok ((pageKeys elements).flatMap (fun pageNumber =>
      let pageIndex := pageNumber - 1
      if pageIndex < 0 ∨ (doc.pages.length : ℤ) ≤ pageIndex then []
      else
        let page := doc.pages.getD pageIndex.toNat ⟨0, 0⟩
        (elements.filter (fun e => e.pageNumber = pageNumber)).flatMap
          (fun element =>
            if validateTextElement element then processElement pageIndex.toNat page element
            else [])))

/-! ### `src/components/PDFViewer.tsx` (revision with snapping):
coordinate conversion -/

/-- One snap candidate of `allSnapTargets` (lines 215-228): the relevant
axis value and whether it came from a manual text element (`type:'manual'`,
padding-adjusted on snap) or from an extracted PDF text item. -/
structure SnapTarget where
  val : ℚ
  manual : Bool
deriving DecidableEq, Repr

/-- `snapThreshold` (line 207): 20 page units. -/
def snapThreshold : ℚ := 20

/-- Accumulator of the candidate scan: the closest distance, value and kind
seen so far.  `none` models the `Infinity` / `'none'` initial state. -/
structure SnapAcc where
  dist : ℚ
  val : ℚ
  manual : Bool
deriving DecidableEq, Repr

/-- One iteration of the candidate loop (lines 246-262):
`if (distance < closestDistance && distance <= snapThreshold)` take the
candidate, else keep the accumulator. -/
def snapStep (raw : ℚ) (acc : Option SnapAcc) (t : SnapTarget) : Option SnapAcc :=
  let d := |t.val - raw|
  match acc with
  | none => if d ≤ snapThreshold then some ⟨d, t.val, t.manual⟩ else acc
  | some a =>
      if d < a.dist ∧ d ≤ snapThreshold then some ⟨d, t.val, t.manual⟩ else acc

/-- One axis of the snapping logic (lines 235-278): scan the candidates,
then, if a candidate was within threshold, snap to its value — minus the
padding offset when it came from a manual element (lines 268, 275);
otherwise keep the raw coordinate.  The source runs both axes inside one
loop with independent accumulators, which this per-axis function reproduces
(the X pass receives pad 8, the Y pass pad 4). -/
def snapAxis (raw pad : ℚ) (targets : List SnapTarget) : ℚ :=
  match targets.foldl (snapStep raw) none with
  | none => raw
  | some a => if a.manual then a.val - pad else a.val

/-- An extracted PDF text item as stored in `pdfTextItems` (line 65):
only the position matters for snapping. -/
structure PdfTextItem where
  x : ℚ
  y : ℚ
deriving DecidableEq, Repr

/-- X-axis snap candidates (lines 215-228): manual elements of the current
page at `el.x + 8`, then PDF text items at `item.x`. -/
def snapTargetsX (pageElements : List TextElement) (pdfTextItems : List PdfTextItem) :
    List SnapTarget :=
  pageElements.map (fun el => ⟨el.x + 8, true⟩) ++
    pdfTextItems.map (fun item => ⟨item.x, false⟩)

/-- Y-axis snap candidates (lines 215-228): manual elements of the current
page at `el.y + 4`, then PDF text items at `item.y`. -/
def snapTargetsY (pageElements : List TextElement) (pdfTextItems : List PdfTextItem) :
    List SnapTarget :=
  pageElements.map (fun el => ⟨el.y + 4, true⟩) ++
    pdfTextItems.map (fun item => ⟨item.y, false⟩)

/-- The screen-space bounding rectangle of the rendered page element
(`getBoundingClientRect`). -/
structure PageRect where
  left : ℚ
  top : ℚ
deriving DecidableEq, Repr

/-- `screenToPdfCoordinates` (snapping revision, lines 179-290).  The two
early returns for an unmounted container / missing `.react-pdf__Page`
element collapse to the `none` rectangle and yield `(0, 0)`.  Otherwise:
relative position, division by the render scale, per-axis snapping, then
clamping into `[0, pageWidth] × [0, pageHeight]`.  The non-snapping
revision (`src/components/PDFViewer.tsx` lines 123-155) is the special
case of empty candidate lists. -/
def screenToPdfCoordinates (pageElement : Option PageRect) (scale : ℚ)
    (pageWidth pageHeight : ℚ) (textElements : List TextElement)
    (currentPage : ℤ) (pdfTextItems : List PdfTextItem)
    (screenX screenY : ℚ) : ℚ × ℚ :=
  match pageElement with
  | none => (0, 0)
  | some pageRect =>
    let relativeX := screenX - pageRect.left
    let relativeY := screenY - pageRect.top
    let pdfX := relativeX / scale
    let pdfY := relativeY / scale
    let pageElements := textElements.filter (fun el => el.pageNumber = currentPage)
    let alignedX := snapAxis pdfX 8 (snapTargetsX pageElements pdfTextItems)
    let alignedY := snapAxis pdfY 4 (snapTargetsY pageElements pdfTextItems)
    let constrainedX := max 0 (min alignedX pageWidth)
    let constrainedY := max 0 (min alignedY pageHeight)
    (constrainedX, constrainedY)

/-! ### `src/components/TextElement.tsx`: drag-move -/

/-- `padding` of the drag handler (line 144): 5 page units. -/
def dragPadding : ℚ := 5

/-- The drag-move position update (`handleMouseMove`, lines 128-161):
screen delta divided by scale, added to the gesture's initial position,
clamped into `[padding, pageWidth - padding] × [padding, pageHeight - padding]`,
then `Math.round`ed before being passed to `onUpdate`. -/
def dragPosition (initialX initialY dragStartX dragStartY clientX clientY :
    ℚ) (scale pageWidth pageHeight : ℚ) : ℤ × ℤ :=
  let deltaX := clientX - dragStartX
  let deltaY := clientY - dragStartY
  let pdfDeltaX := deltaX / scale
  let pdfDeltaY := deltaY / scale
  let newX := initialX + pdfDeltaX
  let newY := initialY + pdfDeltaY
  let constrainedX := max dragPadding (min newX (pageWidth - dragPadding))
  let constrainedY := max dragPadding (min newY (pageHeight - dragPadding))
  (jsRound constrainedX, jsRound constrainedY)

/-! ### Text element store (page component): update / delete -/

/-- A `Partial<TextElement>` patch: every field optional. -/
structure TextElementPatch where
  id : Option String := none
  content : Option String := none
  x : Option ℚ := none
  y : Option ℚ := none
  fontSize : Option ℚ := none
  fontFamily : Option String := none
  color : Option String := none
  bold : Option Bool := none
  italic : Option Bool := none
  underline : Option Bool := none
  pageNumber : Option ℤ := none
  isPredefined : Option (Option Bool) := none
  letterSpacing : Option (Option ℚ) := none
  wordSpacing : Option (Option ℚ) := none
  lineHeight : Option (Option ℚ) := none
  textAlign : Option (Option String) := none
  textTransform : Option (Option TextTransform) := none
  textDecoration : Option (Option TextDecoration) := none
  fontWeight : Option (Option ℚ) := none
  fontStyle : Option (Option String) := none
  textShadow : Option (Option String) := none
  backgroundColor : Option (Option String) := none
  borderRadius : Option (Option ℚ) := none
  padding : Option (Option ℚ) := none
  opacity : Option (Option ℚ) := none
deriving DecidableEq, Repr

/-- The empty patch `{}`. -/
def emptyPatch : TextElementPatch := {}

/-- The object spread `{ ...element, ...updates }`: a field present in the
patch overrides the element's field. -/
def applyPatch (e : TextElement) (p : TextElementPatch) : TextElement where
  id := p.id.getD e.id
  content := p.content.getD e.content
  x := p.x.getD e.x
  y := p.y.getD e.y
  fontSize := p.fontSize.getD e.fontSize
  fontFamily := p.fontFamily.getD e.fontFamily
  color := p.color.getD e.color
  bold := p.bold.getD e.bold
  italic := p.italic.getD e.italic
  underline := p.underline.getD e.underline
  pageNumber := p.pageNumber.getD e.pageNumber
  isPredefined := p.isPredefined.getD e.isPredefined
  letterSpacing := p.letterSpacing.getD e.letterSpacing
  wordSpacing := p.wordSpacing.getD e.wordSpacing
  lineHeight := p.lineHeight.getD e.lineHeight
  textAlign := p.textAlign.getD e.textAlign
  textTransform := p.textTransform.getD e.textTransform
  textDecoration := p.textDecoration.getD e.textDecoration
  fontWeight := p.fontWeight.getD e.fontWeight
  fontStyle := p.fontStyle.getD e.fontStyle
  textShadow := p.textShadow.getD e.textShadow
  backgroundColor := p.backgroundColor.getD e.backgroundColor
  borderRadius := p.borderRadius.getD e.borderRadius
  padding := p.padding.getD e.padding
  opacity := p.opacity.getD e.opacity

/-- `updateTextElement` (page component, lines 350-366):
`prev.map(el => el.id === id ? { ...el, ...updates } : el)`. -/
def updateTextElement (id : String) (updates : TextElementPatch)
    (prev : List TextElement) : List TextElement :=
  prev.map (fun element => if element.id = id then applyPatch element updates else element)

/-- `deleteTextElement` (page component, lines 369-379):
`prev.filter(el => el.id !== id)`. -/
def deleteTextElement (id : String) (prev : List TextElement) : List TextElement :=
  prev.filter (fun element => element.id ≠ id)

/-! ### Specification-side definitions (for refinement comparisons).
Each is written from the corresponding spec sentence, to be compared
against the source-derived definitions above. -/

/-- Spec formula for the draw origin (with the amended constant
`xOffset = -0.1`): `drawX = elementX + xOffset`,
`drawY = pageHeight - elementY - fontSize·0.85 + yOffset`, both clamped
to be at least `0`. -/
def specDrawOrigin (elementX elementY fontSize pageHeight : ℚ) : ℚ × ℚ :=
  (max 0 (elementX + -(1/10)),
    max 0 (pageHeight - elementY - fontSize * (85/100) + -4))

/-- Spec formula for boldness as amended: when `fontWeight` is provided and
nonzero it alone decides (`≥ 600`); otherwise the legacy `bold` flag. -/
def specBoldAmended (fontWeight : Option ℚ) (legacyBold : Bool) : Bool :=
  match fontWeight with
  | some w => if w = 0 then legacyBold else decide (600 ≤ w)
  | none => legacyBold

/-- Spec formula for italics as amended: when `fontStyle` is provided and
nonempty it alone decides (membership in `{italic, oblique}`); otherwise
the legacy `italic` flag. -/
def specItalicAmended (fontStyle : Option String) (legacyItalic : Bool) : Bool :=
  match fontStyle with
  | some s => if s = "" then legacyItalic else decide (s = "italic" ∨ s = "oblique")
  | none => legacyItalic

/-- Spec formula for the per-family average width ratio. -/
def specFamilyRatio (fontFamily : String) : ℚ :=
  if strHasSub (strToLower fontFamily) "courier" then 6/10
  else if strHasSub (strToLower fontFamily) "times" then 5/10
  else 55/100

/-- Spec-side minimum of the absolute distances of the candidates to the
raw coordinate. -/
def minDistList (raw : ℚ) : List SnapTarget → Option ℚ
  | [] => none
  | t :: ts =>
    match minDistList raw ts with
    | none => some |t.val - raw|
    | some m => some (min |t.val - raw| m)

/-- Spec-side snapping, following the claim's words: find the candidate
with minimum absolute distance to the raw coordinate (ties resolved to the
first-encountered candidate); if that minimum is at most the threshold,
snap to that candidate's value (padding-adjusted for manual elements),
otherwise keep the raw value. -/
def specSnapAxis (raw pad : ℚ) (ts : List SnapTarget) : ℚ :=
  match minDistList raw ts with
  | none => raw
  | some d =>
    if d ≤ snapThreshold then
      match ts.find? (fun t => decide (|t.val - raw| = d)) with
      | some t => if t.manual then t.val - pad else t.val
      | none => raw
    else raw

/-! ## Theorems -/

/-- **C1** (counterexample): the claim's constant `xOffset = -0.4` and its
concrete drawn position `(≈99.6, ≈611.8)` are both wrong for the code: the
compositor uses `xOffset = -0.1`, so the element `{x:100, y:100, fontSize:12}`
on a 612×792 page is drawn at `(99.9, 677.8)`, not at `(99.6, 611.8)`. -/
theorem C1_draw_origin_counterexample :
    drawOriginX 100 = 999/10 ∧ (999/10 : ℚ) ≠ 100 + -(4/10) ∧
      drawOriginY 792 100 12 = 3389/5 ∧ (3389/5 : ℚ) ≠ 3059/5 := by
  refine ⟨by norm_num [drawOriginX, xOffset, minMargin], by norm_num,
    by norm_num [drawOriginY, yOffset, baselineMultiplier, minMargin], by norm_num⟩

/-- **C1** (amended): the draw origin is
`drawX = max 0 (elementX + xOffset)`,
`drawY = max 0 (pageHeight - elementY - fontSize·baselineMultiplier + yOffset)`
with `xOffset = -0.1` (not `-0.4`), `yOffset = -4`,
`baselineMultiplier = 0.85`; the element `{x:100, y:100, fontSize:12}` on a
612×792 page is drawn at `(99.9, 677.8)`, as the full compositor run on a
one-element batch shows. -/
theorem C1_draw_origin :
    (∀ x y fs h : ℚ, (drawOriginX x, drawOriginY h y fs) = specDrawOrigin x y fs h) ∧
      drawOriginX 100 = 999/10 ∧ drawOriginY 792 100 12 = 3389/5 ∧
      generatePDFWithText (some ⟨[⟨612, 792⟩]⟩)
        [{ id := "a", content := "Hello", x := 100, y := 100, fontSize := 12,
           fontFamily := "Helvetica", color := "#000000", bold := false,
           italic := false, underline := false, pageNumber := 1 }] =
        .ok [.text 0 "Hello" (999/10) (3389/5) 12 .Helvetica (0, 0, 0) 1] := by
  refine ⟨fun x y fs h => rfl, ?_, ?_, ?_⟩
  · norm_num [drawOriginX, xOffset, minMargin]
  · norm_num [drawOriginY, yOffset, baselineMultiplier, minMargin]
  · have hfont : getFontForFamily "Helvetica" false false none none = .Helvetica := by decide
    have hcolor : hexToRgb "#000000" = ⟨0, 0, 0⟩ := by decide
    simp +decide only [generatePDFWithText, pageKeys, insertAscending, List.foldl_cons,
      List.foldl_nil, List.flatMap_cons, List.flatMap_nil, List.filter_cons, List.filter_nil,
      processElement, hfont, hcolor, validateTextElement]
    norm_num [drawOriginX, drawOriginY, xOffset, yOffset, baselineMultiplier, minMargin,
      applyTextTransform, normalizeRgb, List.getD]
    simp +decide [hfont, hcolor, Prod.ext_iff]

/-- **C5** (counterexample): the claim computes boldness as
`(fontWeight ≥ 600) OR legacy bold`, which at `fontWeight = 400, bold = true`
demands a bold variant; the code lets a provided nonzero `fontWeight`
override the legacy flag, so that element resolves to regular Helvetica. -/
theorem C5_bold_counterexample :
    determinedBold (some 400) true = false ∧
      (decide ((400 : ℚ) ≥ 600) || true) = true ∧
      getFontForFamily "Helvetica" true false (some 400) none = .Helvetica ∧
      StandardFont.Helvetica ≠ StandardFont.HelveticaBold := by
  refine ⟨by decide, by decide, by decide, by decide⟩

/-- **C5** (amended): boldness is `fontWeight ≥ 600` when `fontWeight` is
provided and nonzero, otherwise the legacy `bold` flag; italics is
`fontStyle ∈ {italic, oblique}` when `fontStyle` is provided and nonempty,
otherwise the legacy `italic` flag.  In particular `fontWeight = 400` with
`bold = true` resolves to the regular variant, while `fontWeight = 700`
resolves to bold and `fontStyle = "oblique"` to the oblique variant. -/
theorem C5_font_resolution :
    (∀ fw legacy, determinedBold fw legacy = specBoldAmended fw legacy) ∧
      (∀ fs legacy, determinedItalic fs legacy = specItalicAmended fs legacy) ∧
      getFontForFamily "Helvetica" true false (some 400) none = .Helvetica ∧
      getFontForFamily "Helvetica" false false (some 700) none = .HelveticaBold ∧
      getFontForFamily "Helvetica" false true none (some "oblique") = .HelveticaOblique := by
  refine ⟨?_, ?_, by decide, by decide, by decide⟩
  · intro fw legacy
    cases fw with
    | none => rfl
    | some w =>
      simp only [determinedBold, specBoldAmended]
      by_cases h : w = 0 <;> simp [h]
  · intro fs legacy
    cases fs with
    | none => rfl
    | some s =>
      simp only [determinedItalic, specItalicAmended]
      by_cases h : s = "" <;> simp [h]

/-- **C7** (counterexample): the whole-string estimator has no
per-character refinement, so for the single narrow glyph `"i"` in
Helvetica at size 10 it returns `5.5` while the per-character estimator
used for multi-run advance returns `3` — the two estimators disagree. -/
theorem C7_width_counterexample :
    estimateTextWidth "i" 10 "Helvetica" = 11/2 ∧
      estimateCharWidth 'i' 10 "Helvetica" = 3 ∧
      estimateTextWidth "i" 10 "Helvetica" ≠
        ((("i" : String).toList.map fun c => estimateCharWidth c 10 "Helvetica")).sum := by
  have h1 : strHasSub (strToLower "Helvetica") "courier" = false := by decide
  have h2 : strHasSub (strToLower "Helvetica") "times" = false := by decide
  have h3 : ("i" : String).length = 1 := rfl
  have hw : estimateTextWidth "i" 10 "Helvetica" = 11/2 := by
    norm_num [estimateTextWidth, h1, h2, h3]
  have hc : estimateCharWidth 'i' 10 "Helvetica" = 3 := by
    norm_num [estimateCharWidth, h1, h2]
  refine ⟨hw, hc, ?_⟩
  rw [hw]
  norm_num [hc]

/-- **C7** (amended): the whole-string estimator is exactly
`characterCount × fontSize × familyRatio`, with no per-character
refinement; the per-character refinement for `i l t f` and `m w M W`
exists only in the per-character estimator used for multi-run advance;
the two estimators agree (whole string = sum over characters) precisely
on the refinement-free monospace (Courier) family. -/
theorem C7_width_estimation :
    (∀ (text : String) (fs : ℚ) (fam : String),
        estimateTextWidth text fs fam = (text.length : ℚ) * (fs * specFamilyRatio fam)) ∧
      ∀ (text : String) (fs : ℚ) (fam : String),
        strHasSub (strToLower fam) "courier" = true →
        estimateTextWidth text fs fam =
          ((text.toList.map fun c => estimateCharWidth c fs fam).sum) := by
  constructor
  · intro text fs fam
    simp only [estimateTextWidth, specFamilyRatio]
    split_ifs <;> ring
  · intro text fs fam h
    have hc : ∀ c : Char, estimateCharWidth c fs fam = fs * (6/10) := by
      intro c; simp [estimateCharWidth, h]
    calc estimateTextWidth text fs fam = (text.length : ℚ) * (fs * (6/10)) := by
          simp [estimateTextWidth, h]
      _ = ((text.toList.map fun c => estimateCharWidth c fs fam).sum) := by
          simp only [hc]
          show ((text.toList.length : ℕ) : ℚ) * (fs * (6/10)) = _
          generalize text.toList = cs
          induction cs with
          | nil => simp
          | cons c cs ih =>
            simp only [List.map_cons, List.sum_cons, List.length_cons, ← ih]
            push_cast
            ring

/-- Witness for C7: on the Courier family (no per-character refinement)
the whole-string estimate of `"ab"` at size 10 equals the sum of the
per-character estimates. -/
theorem C7_width_estimation_witness :
    estimateTextWidth "ab" 10 "Courier" =
      ((("ab" : String).toList.map fun c => estimateCharWidth c 10 "Courier")).sum :=
  C7_width_estimation.2 "ab" 10 "Courier" (by decide)

/-- Auxiliary for C6: doubling a non-hex character never parses. -/
theorem parseIntHex_double_none (c : Char) (h : hexVal c = none) :
    parseIntHex (String.mk [c, c]) = none := by
  have htl : (String.mk [c, c]).toList = [c, c] := rfl
  by_cases hw : c.isWhitespace = true
  · have hdrop : [c, c].dropWhile Char.isWhitespace = [] := by
      simp [List.dropWhile_cons, hw]
    simp [parseIntHex, htl, hdrop]
  · have hdrop : [c, c].dropWhile Char.isWhitespace = [c, c] := by
      simp [List.dropWhile_cons, hw]
    have hhex : (hexVal c).isSome = false := by rw [h]; rfl
    by_cases hsign : c = '-' ∨ c = '+'
    · simp [parseIntHex, htl, hdrop, hsign, List.takeWhile_cons, hhex]
    · have h0 : ¬(c = '0' ∧ (c = 'x' ∨ c = 'X')) := by
        rintro ⟨rfl, _⟩
        exact absurd h (by decide)
      simp [parseIntHex, htl, hdrop, hsign, h0, List.takeWhile_cons, hhex]

/-- **C6** (counterexample): the claim says any string containing non-hex
characters resolves to black, but JavaScript `parseInt` parses the longest
valid prefix: the 6-character string `"ffzzzz"` contains non-hex characters
yet parses as `0xff = 255`, giving the non-black triple `(0, 0, 255)`. -/
theorem C6_hex_counterexample :
    hexToRgb "ffzzzz" = ⟨0, 0, 255⟩ ∧ (⟨0, 0, 255⟩ : RGB) ≠ ⟨0, 0, 0⟩ ∧
      ∃ c ∈ ("ffzzzz" : String).toList, hexVal c = none := by
  refine ⟨by decide, by decide, by decide⟩

/-- **C6** (amended): hex parsing is total; `"#fff"` and `"#ffffff"` both
normalize to `(1,1,1)`; the empty string, `"notacolor"`, `"#12"`, and any
string whose sanitized form is not exactly 3 or 6 characters yield black,
as does a 3-character form containing any non-hex character; a 6-character
form, however, is parsed with JavaScript longest-prefix `parseInt`
semantics, so a valid hex prefix is honoured even when later characters are
not hex (e.g. `"ffzzzz"` yields `(0,0,255)`); only a 6-character form with
no parseable prefix yields black. -/
theorem C6_hex_parsing :
    (normalizeRgb (hexToRgb "#fff") = (1, 1, 1) ∧
        normalizeRgb (hexToRgb "#ffffff") = (1, 1, 1)) ∧
      (hexToRgb "" = ⟨0, 0, 0⟩ ∧ hexToRgb "notacolor" = ⟨0, 0, 0⟩ ∧
        hexToRgb "#12" = ⟨0, 0, 0⟩) ∧
      (∀ s : String, ¬(sanitizeHex s).length = 3 → ¬(sanitizeHex s).length = 6 →
        hexToRgb s = ⟨0, 0, 0⟩) ∧
      (∀ s : String, (sanitizeHex s).length = 3 →
        (∃ c ∈ (sanitizeHex s).toList, hexVal c = none) → hexToRgb s = ⟨0, 0, 0⟩) ∧
      hexToRgb "ffzzzz" = ⟨0, 0, 255⟩ := by
  refine ⟨⟨?_, ?_⟩, ⟨by decide, by decide, by decide⟩, ?_, ?_, by decide⟩
  · have h : hexToRgb "#fff" = ⟨255, 255, 255⟩ := by decide
    rw [h]; norm_num [normalizeRgb, Prod.ext_iff]
  · have h : hexToRgb "#ffffff" = ⟨255, 255, 255⟩ := by decide
    rw [h]; norm_num [normalizeRgb, Prod.ext_iff]
  · intro s h3 h6
    by_cases h0 : (sanitizeHex s).length = 0
    · simp [hexToRgb, h0]
    · simp [hexToRgb, h0, h3, h6]
  · intro s h3 hbad
    obtain ⟨c, hmem, hnone⟩ := hbad
    have hne0 : ¬(sanitizeHex s).length = 0 := by omega
    have hlist : ∃ c0 c1 c2, (sanitizeHex s).toList = [c0, c1, c2] := by
      rw [← List.length_eq_three]
      exact h3
    obtain ⟨c0, c1, c2, hl⟩ := hlist
    have hl' : (sanitizeHex s).data = [c0, c1, c2] := hl
    have hc0 : charAt (sanitizeHex s) 0 = c0 := by simp [charAt, hl']
    have hc1 : charAt (sanitizeHex s) 1 = c1 := by simp [charAt, hl']
    have hc2 : charAt (sanitizeHex s) 2 = c2 := by simp [charAt, hl']
    rw [hl] at hmem
    simp only [List.mem_cons, List.not_mem_nil, or_false] at hmem
    rcases hmem with rfl | rfl | rfl
    · have hr : parseIntHex (String.mk [charAt (sanitizeHex s) 0, charAt (sanitizeHex s) 0]) = none := by
        rw [hc0]; exact parseIntHex_double_none c hnone
      simp only [hexToRgb, hne0, h3, if_false, if_true, hr]
      simp
    · have hr : parseIntHex (String.mk [charAt (sanitizeHex s) 1, charAt (sanitizeHex s) 1]) = none := by
        rw [hc1]; exact parseIntHex_double_none c hnone
      simp only [hexToRgb, hne0, h3, if_false, if_true, hr]
      cases parseIntHex (String.mk [charAt (sanitizeHex s) 0, charAt (sanitizeHex s) 0]) <;>
        cases parseIntHex (String.mk [charAt (sanitizeHex s) 2, charAt (sanitizeHex s) 2]) <;> rfl
    · have hr : parseIntHex (String.mk [charAt (sanitizeHex s) 2, charAt (sanitizeHex s) 2]) = none := by
        rw [hc2]; exact parseIntHex_double_none c hnone
      simp only [hexToRgb, hne0, h3, if_false, if_true, hr]
      cases parseIntHex (String.mk [charAt (sanitizeHex s) 0, charAt (sanitizeHex s) 0]) <;>
        cases parseIntHex (String.mk [charAt (sanitizeHex s) 1, charAt (sanitizeHex s) 1]) <;> rfl

/-- Witness for C6: the universally quantified black cases of
`C6_hex_parsing` applied at the concrete inputs `"abcd"` (sanitized length
4) and `"#z11"` (3 characters, one non-hex). -/
theorem C6_hex_parsing_witness :
    hexToRgb "abcd" = ⟨0, 0, 0⟩ ∧ hexToRgb "#z11" = ⟨0, 0, 0⟩ :=
  ⟨C6_hex_parsing.2.2.1 "abcd" (by decide) (by decide),
    C6_hex_parsing.2.2.2.1 "#z11" (by decide) (by decide)⟩

/-- **C8**: the text transform is applied to the content exactly once
before drawing: every element without spacing adjustments is drawn as one
run whose content is one application of `applyTextTransform`; `uppercase`
maps every character to upper case, `lowercase` to lower case,
`capitalize` capitalizes each space-separated word, and an absent or
`none` transform leaves the content unchanged; the element
`{content:"hello world", textTransform:"capitalize"}` composes the literal
string `"Hello World"`. -/
theorem C8_text_transform :
    (∀ (pageIndex : ℕ) (page : PDFPage) (e : TextElement),
        e.letterSpacing.getD 0 = 0 → e.wordSpacing.getD 0 = 0 →
        (processElement pageIndex page e).head? =
          some (DrawOp.text pageIndex (applyTextTransform e.textTransform e.content)
            (drawOriginX e.x) (drawOriginY page.height e.y e.fontSize) e.fontSize
            (getFontForFamily e.fontFamily e.bold e.italic e.fontWeight e.fontStyle)
            (normalizeRgb (hexToRgb e.color)) (e.opacity.getD 1))) ∧
      applyTextTransform (some .capitalize) "hello world" = "Hello World" ∧
      (∀ c, applyTextTransform none c = c ∧
        applyTextTransform (some .noTransform) c = c) ∧
      (∀ c, applyTextTransform (some .uppercase) c = String.mk (c.toList.map Char.toUpper) ∧
        applyTextTransform (some .lowercase) c = String.mk (c.toList.map Char.toLower)) ∧
      generatePDFWithText (some ⟨[⟨612, 792⟩]⟩)
        [{ id := "a", content := "hello world", x := 100, y := 100, fontSize := 12,
           fontFamily := "Helvetica", color := "#000000", bold := false,
           italic := false, underline := false, pageNumber := 1,
           textTransform := some .capitalize }] =
        .ok [.text 0 "Hello World" (999/10) (3389/5) 12 .Helvetica (0, 0, 0) 1] := by
  refine ⟨?_, by decide, fun c => ⟨rfl, rfl⟩, fun c => ⟨rfl, rfl⟩, ?_⟩
  · intro pageIndex page e hls hws
    simp [processElement, hls, hws]
  · have hfont : getFontForFamily "Helvetica" false false none none = .Helvetica := by decide
    have hcolor : hexToRgb "#000000" = ⟨0, 0, 0⟩ := by decide
    have htr : applyTextTransform (some .capitalize) "hello world" = "Hello World" := by decide
    simp +decide only [generatePDFWithText, pageKeys, insertAscending, List.foldl_cons,
      List.foldl_nil, List.flatMap_cons, List.flatMap_nil, List.filter_cons, List.filter_nil,
      processElement, hfont, hcolor, htr, validateTextElement]
    norm_num [drawOriginX, drawOriginY, xOffset, yOffset, baselineMultiplier, minMargin,
      normalizeRgb, List.getD]
    simp +decide [hfont, hcolor, htr, Prod.ext_iff]

/-- Witness for C8: the single-run shape applied to a concrete element
with an uppercase transform and no spacing adjustments. -/
theorem C8_text_transform_witness :
    (processElement 0 ⟨612, 792⟩
        { id := "a", content := "hi", x := 10, y := 10, fontSize := 12,
          fontFamily := "Helvetica", color := "#fff", bold := false,
          italic := false, underline := false, pageNumber := 1,
          textTransform := some .uppercase }).head? =
      some (DrawOp.text 0 (applyTextTransform (some .uppercase) "hi") (drawOriginX 10)
        (drawOriginY 792 10 12) 12
        (getFontForFamily "Helvetica" false false none none)
        (normalizeRgb (hexToRgb "#fff")) 1) :=
  C8_text_transform.1 0 ⟨612, 792⟩ _ rfl rfl

/-- **C9**: store operations are total and degrade to no-ops on missing
ids: an empty patch leaves every element unchanged, and `update` / `delete`
with an id not present in the store leave the collection unchanged (both
operations are total functions of the previous state — nothing throws). -/
theorem C9_store_noop :
    (∀ (prev : List TextElement) (id : String),
        updateTextElement id emptyPatch prev = prev) ∧
      (∀ (prev : List TextElement) (id : String) (p : TextElementPatch),
        (∀ e ∈ prev, e.id ≠ id) → updateTextElement id p prev = prev) ∧
      ∀ (prev : List TextElement) (id : String),
        (∀ e ∈ prev, e.id ≠ id) → deleteTextElement id prev = prev := by
  refine ⟨?_, ?_, ?_⟩
  · intro prev id
    have happ : (fun element =>
        if element.id = id then applyPatch element emptyPatch else element) =
        fun element : TextElement => element := by
      funext e
      rw [show applyPatch e emptyPatch = e from rfl, ite_self]
    show prev.map _ = prev
    rw [happ, List.map_id' prev]
  · intro prev id p h
    calc prev.map (fun element =>
          if element.id = id then applyPatch element p else element)
        = prev.map (fun element => element) :=
          List.map_congr_left (fun e he => if_neg (h e he))
      _ = prev := List.map_id' prev
  · intro prev id h
    exact List.filter_eq_self.mpr (fun e he => decide_eq_true (h e he))

/-- Witness for C9: updating and deleting the missing id `"zzz"` in a
one-element store leaves it unchanged. -/
theorem C9_store_noop_witness :
    updateTextElement "zzz" { content := some "other" }
        [{ id := "a", content := "hi", x := 0, y := 0, fontSize := 12,
           fontFamily := "Helvetica", color := "#fff", bold := false,
           italic := false, underline := false, pageNumber := 1 }] =
      [{ id := "a", content := "hi", x := 0, y := 0, fontSize := 12,
         fontFamily := "Helvetica", color := "#fff", bold := false,
         italic := false, underline := false, pageNumber := 1 }] ∧
    deleteTextElement "zzz"
        [{ id := "a", content := "hi", x := 0, y := 0, fontSize := 12,
           fontFamily := "Helvetica", color := "#fff", bold := false,
           italic := false, underline := false, pageNumber := 1 }] =
      [{ id := "a", content := "hi", x := 0, y := 0, fontSize := 12,
         fontFamily := "Helvetica", color := "#fff", bold := false,
         italic := false, underline := false, pageNumber := 1 }] :=
  ⟨C9_store_noop.2.1 _ "zzz" _ (by decide), C9_store_noop.2.2 _ "zzz" (by decide)⟩

/-- Auxiliary: `Math.round` of a value at most an integer stays at most
that integer. -/
theorem jsRound_le_int {q : ℚ} {n : ℤ} (h : q ≤ (n : ℚ)) : jsRound q ≤ n := by
  have h2 : q + 1/2 ≤ (n : ℚ) + 1/2 := by linarith
  have h3 : ⌊q + 1/2⌋ ≤ ⌊(n : ℚ) + 1/2⌋ := Int.floor_le_floor h2
  have h4 : ⌊(n : ℚ) + 1/2⌋ = n := by
    rw [add_comm, Int.floor_add_int]
    norm_num
  rw [jsRound]
  omega

/-- Auxiliary: `Math.round` of a value at least an integer stays at least
that integer. -/
theorem int_le_jsRound {q : ℚ} {n : ℤ} (h : (n : ℚ) ≤ q) : n ≤ jsRound q := by
  have h2 : (n : ℚ) + 1/2 ≤ q + 1/2 := by linarith
  have h3 : ⌊(n : ℚ) + 1/2⌋ ≤ ⌊q + 1/2⌋ := Int.floor_le_floor h2
  have h4 : ⌊(n : ℚ) + 1/2⌋ = n := by
    rw [add_comm, Int.floor_add_int]
    norm_num
  rw [jsRound]
  omega

/-- **C10** (counterexample): the claim says a dragged element never ends
up within 5 units of a page edge, but rounding happens after clamping: on a
page of fractional width 100.6 the clamp bound is 95.6, which rounds to 96,
and 96 is within 5 units of the right edge (100.6 - 96 = 4.6 < 5). -/
theorem C10_drag_counterexample :
    (dragPosition 0 0 0 0 1200 0 (6/5) (503/5) 600).1 = 96 ∧
      ¬((96 : ℚ) ≤ 503/5 - 5) := by
  constructor
  · have h1 : (0 : ℚ) + (1200 - 0) / (6/5) = 1000 := by norm_num
    have h2 : max dragPadding (min ((0 : ℚ) + (1200 - 0) / (6/5)) (503/5 - dragPadding)) =
        478/5 := by
      rw [h1]
      norm_num [dragPadding]
    simp only [dragPosition, h2]
    norm_num [jsRound]
  · norm_num

/-- **C10** (amended): every drag-move position update stores
integer-valued coordinates (the codomain of the clamp-then-round pipeline
is `ℤ × ℤ`), each coordinate is at least 5 (the fixed edge padding) on
every input, and — when the page dimensions are integers at least 10 — at
most `pageWidth - 5` resp. `pageHeight - 5`; for fractional page
dimensions the final rounding can land the coordinate within 5 units of
the far edge. -/
theorem C10_drag_rounded_clamp :
    (∀ ix iy sx sy cx cy scale pw ph : ℚ,
        5 ≤ (dragPosition ix iy sx sy cx cy scale pw ph).1 ∧
        5 ≤ (dragPosition ix iy sx sy cx cy scale pw ph).2) ∧
      ∀ (ix iy sx sy cx cy scale : ℚ) (wn hn : ℤ), 10 ≤ wn → 10 ≤ hn →
        (dragPosition ix iy sx sy cx cy scale (wn : ℚ) (hn : ℚ)).1 ≤ wn - 5 ∧
        (dragPosition ix iy sx sy cx cy scale (wn : ℚ) (hn : ℚ)).2 ≤ hn - 5 := by
  constructor
  · intro ix iy sx sy cx cy scale pw ph
    constructor
    · refine int_le_jsRound ?_
      have : (((5 : ℤ) : ℚ)) = dragPadding := by norm_num [dragPadding]
      rw [this]
      exact le_max_left _ _
    · refine int_le_jsRound ?_
      have : (((5 : ℤ) : ℚ)) = dragPadding := by norm_num [dragPadding]
      rw [this]
      exact le_max_left _ _
  · intro ix iy sx sy cx cy scale wn hn hw hh
    constructor
    · refine jsRound_le_int ?_
      have hcast : ((wn - 5 : ℤ) : ℚ) = (wn : ℚ) - dragPadding := by
        push_cast [dragPadding]; ring
      rw [hcast]
      refine max_le ?_ (min_le_right _ _)
      have : (10 : ℚ) ≤ (wn : ℚ) := by exact_mod_cast hw
      norm_num [dragPadding]
      linarith
    · refine jsRound_le_int ?_
      have hcast : ((hn - 5 : ℤ) : ℚ) = (hn : ℚ) - dragPadding := by
        push_cast [dragPadding]; ring
      rw [hcast]
      refine max_le ?_ (min_le_right _ _)
      have : (10 : ℚ) ≤ (hn : ℚ) := by exact_mod_cast hh
      norm_num [dragPadding]
      linarith

/-- Witness for C10: a drag on a 612×792 page stays in
`[5, 607] × [5, 787]`. -/
theorem C10_drag_rounded_clamp_witness :
    5 ≤ (dragPosition 0 0 0 0 700 700 1 ((612 : ℤ) : ℚ) ((792 : ℤ) : ℚ)).1 ∧
      (dragPosition 0 0 0 0 700 700 1 ((612 : ℤ) : ℚ) ((792 : ℤ) : ℚ)).1 ≤ 607 ∧
      (dragPosition 0 0 0 0 700 700 1 ((612 : ℤ) : ℚ) ((792 : ℤ) : ℚ)).2 ≤ 787 :=
  ⟨(C10_drag_rounded_clamp.1 0 0 0 0 700 700 1 _ _).1,
    (C10_drag_rounded_clamp.2 0 0 0 0 700 700 1 612 792 (by norm_num) (by norm_num)).1,
    (C10_drag_rounded_clamp.2 0 0 0 0 700 700 1 612 792 (by norm_num) (by norm_num)).2⟩

/-- **C3**: for every screen input — including far-outside and negative
coordinates — the converted point is clamped into
`[0, pageWidth] × [0, pageHeight]`, and an unmounted page element yields
the zero coordinate `(0, 0)` instead of an exception. -/
theorem C3_screen_to_pdf_clamped :
    (∀ (scale pw ph : ℚ) (tes : List TextElement) (cp : ℤ)
        (ptis : List PdfTextItem) (sx sy : ℚ),
        screenToPdfCoordinates none scale pw ph tes cp ptis sx sy = (0, 0)) ∧
      ∀ (rect : PageRect) (scale pw ph : ℚ) (tes : List TextElement) (cp : ℤ)
        (ptis : List PdfTextItem) (sx sy : ℚ), 0 ≤ pw → 0 ≤ ph →
        0 ≤ (screenToPdfCoordinates (some rect) scale pw ph tes cp ptis sx sy).1 ∧
        (screenToPdfCoordinates (some rect) scale pw ph tes cp ptis sx sy).1 ≤ pw ∧
        0 ≤ (screenToPdfCoordinates (some rect) scale pw ph tes cp ptis sx sy).2 ∧
        (screenToPdfCoordinates (some rect) scale pw ph tes cp ptis sx sy).2 ≤ ph := by
  constructor
  · intro scale pw ph tes cp ptis sx sy
    rfl
  · intro rect scale pw ph tes cp ptis sx sy hpw hph
    refine ⟨le_max_left _ _, max_le hpw (min_le_right _ _),
      le_max_left _ _, max_le hph (min_le_right _ _)⟩

/-- Witness for C3: a pointer far outside the page (negative X, huge Y) on
a 612×792 page still lands inside the page bounds. -/
theorem C3_screen_to_pdf_clamped_witness :
    0 ≤ (screenToPdfCoordinates (some ⟨0, 0⟩) (6/5) 612 792 [] 1 [] (-99999) 99999).1 ∧
      (screenToPdfCoordinates (some ⟨0, 0⟩) (6/5) 612 792 [] 1 [] (-99999) 99999).1 ≤ 612 ∧
      0 ≤ (screenToPdfCoordinates (some ⟨0, 0⟩) (6/5) 612 792 [] 1 [] (-99999) 99999).2 ∧
      (screenToPdfCoordinates (some ⟨0, 0⟩) (6/5) 612 792 [] 1 [] (-99999) 99999).2 ≤ 792 :=
  C3_screen_to_pdf_clamped.2 ⟨0, 0⟩ (6/5) 612 792 [] 1 [] (-99999) 99999
    (by norm_num) (by norm_num)

/-- Auxiliary for C2: membership in an ascending insertion. -/
theorem mem_insertAscending {p q : ℤ} {l : List ℤ} :
    q ∈ insertAscending p l ↔ q = p ∨ q ∈ l := by
  induction l with
  | nil => simp [insertAscending]
  | cons r rs ih =>
    simp only [insertAscending]
    split_ifs with h
    · simp
    · simp [ih]
      tauto

/-- Auxiliary for C2: the fold building the page-key list keeps every page
number that is already in the accumulator or appears in the remaining
elements. -/
theorem mem_pageKeys_aux (l : List TextElement) :
    ∀ (acc : List ℤ) (p : ℤ), (p ∈ acc ∨ ∃ e ∈ l, e.pageNumber = p) →
      p ∈ l.foldl
        (fun acc e => if e.pageNumber ∈ acc then acc else insertAscending e.pageNumber acc)
        acc := by
  induction l with
  | nil =>
    intro acc p h
    simpa using h.resolve_right (by simp)
  | cons e l ih =>
    intro acc p h
    rw [List.foldl_cons]
    apply ih
    rcases h with hacc | ⟨x, hx, hpn⟩
    · left
      split_ifs with hmem
      · exact hacc
      · exact mem_insertAscending.mpr (Or.inr hacc)
    · rcases List.mem_cons.mp hx with rfl | hxl
      · left
        subst hpn
        split_ifs with hmem
        · exact hmem
        · exact mem_insertAscending.mpr (Or.inl rfl)
      · exact Or.inr ⟨x, hxl, hpn⟩

/-- Auxiliary for C2: every element's page number appears among the page
keys the compositor iterates over. -/
theorem mem_pageKeys {elements : List TextElement} {e : TextElement}
    (he : e ∈ elements) : e.pageNumber ∈ pageKeys elements :=
  mem_pageKeys_aux elements [] e.pageNumber (Or.inr ⟨e, he, rfl⟩)

/-- **C2**: composition never fails because of a single element.  For any
batch over a successfully parsed document, the compositor returns `ok`,
and every valid element whose page is within `[1, pageCount]` has all of
its draw operations in the output, regardless of what other (possibly
invalid) elements the batch contains; an error is returned exactly when
the source document fails to parse. -/
theorem C2_element_isolation
    (doc : PDFDoc) (elements : List TextElement) (e : TextElement)
    (he : e ∈ elements) (hv : validateTextElement e = true)
    (h1 : 1 ≤ e.pageNumber) (h2 : e.pageNumber ≤ (doc.pages.length : ℤ)) :
    (∃ ops, generatePDFWithText (some doc) elements = Except.ok ops ∧
      ∀ op ∈ processElement (e.pageNumber - 1).toNat
          (doc.pages.getD (e.pageNumber - 1).toNat ⟨0, 0⟩) e, op ∈ ops) ∧
    ∀ (d : Option PDFDoc) (es : List TextElement),
      (∃ msg, generatePDFWithText d es = Except.error msg) ↔ d = none := by
  constructor
  · refine ⟨_, rfl, ?_⟩
    intro op hop
    have hcond : ¬(e.pageNumber - 1 < 0 ∨ (doc.pages.length : ℤ) ≤ e.pageNumber - 1) := by
      push_neg
      omega
    simp only [List.mem_flatMap]
    refine ⟨e.pageNumber, mem_pageKeys he, ?_⟩
    simp only [hcond, if_false]
    simp only [List.mem_flatMap]
    refine ⟨e, List.mem_filter.mpr ⟨he, by simp⟩, ?_⟩
    rw [if_pos hv]
    exact hop
  · intro d es
    cases d with
    | none => simp [generatePDFWithText]
    | some dd => simp [generatePDFWithText]

/-- Witness for C2: in a two-element batch whose first element is invalid
(negative font size), the valid second element's draw operations are all
present in the `ok` output. -/
theorem C2_element_isolation_witness :
    ∃ ops, generatePDFWithText (some ⟨[⟨612, 792⟩]⟩)
        [{ id := "bad", content := "x", x := 1, y := 1, fontSize := -5,
           fontFamily := "Helvetica", color := "#000000", bold := false,
           italic := false, underline := false, pageNumber := 1 },
         { id := "good", content := "ok", x := 1, y := 1, fontSize := 10,
           fontFamily := "Helvetica", color := "#fff", bold := false,
           italic := false, underline := false, pageNumber := 1 }] = Except.ok ops ∧
      ∀ op ∈ processElement 0 ⟨612, 792⟩
          { id := "good", content := "ok", x := 1, y := 1, fontSize := 10,
            fontFamily := "Helvetica", color := "#fff", bold := false,
            italic := false, underline := false, pageNumber := 1 }, op ∈ ops :=
  (C2_element_isolation ⟨[⟨612, 792⟩]⟩ _ _ (by decide) (by decide)
    (by decide) (by decide)).1

/-- Auxiliary for C4: combine a previously found accumulator with the best
of a remaining scan, preferring the earlier one on ties. -/
def snapMerge : Option SnapAcc → Option SnapAcc → Option SnapAcc
  | a, none => a
  | none, some b => some b
  | some a, some b => if b.dist < a.dist then some b else some a

/-- Auxiliary for C4: the within-threshold first-minimizer of a candidate
list, computed by structural recursion (to compare against the source's
left fold). -/
def bestOf (raw : ℚ) : List SnapTarget → Option SnapAcc
  | [] => none
  | t :: ts =>
    if |t.val - raw| ≤ snapThreshold then
      match bestOf raw ts with
      | none => some ⟨|t.val - raw|, t.val, t.manual⟩
      | some a =>
        if a.dist < |t.val - raw| then some a
        else some ⟨|t.val - raw|, t.val, t.manual⟩
    else bestOf raw ts

theorem snapMerge_none_right (a : Option SnapAcc) : snapMerge a none = a := by
  cases a <;> rfl

/-- Auxiliary for C4: the candidate-scan fold equals the merge of its
accumulator with the recursive first-minimizer. -/
theorem foldl_snapStep_eq (raw : ℚ) :
    ∀ (ts : List SnapTarget) (acc : Option SnapAcc),
      ts.foldl (snapStep raw) acc = snapMerge acc (bestOf raw ts) := by
  intro ts
  induction ts with
  | nil =>
    intro acc
    rw [List.foldl_nil, bestOf, snapMerge_none_right]
  | cons t ts ih =>
    intro acc
    rw [List.foldl_cons, ih]
    by_cases hd : |t.val - raw| ≤ snapThreshold
    · cases acc with
      | none =>
        cases hb : bestOf raw ts with
        | none => simp [snapStep, bestOf, hd, hb, snapMerge]
        | some b =>
          by_cases hbd : b.dist < |t.val - raw| <;>
            simp [snapStep, bestOf, hd, hb, snapMerge, hbd]
      | some a =>
        cases hb : bestOf raw ts with
        | none =>
          by_cases hlt : |t.val - raw| < a.dist <;>
            simp [snapStep, bestOf, hd, hb, snapMerge, hlt]
        | some b =>
          by_cases hlt : |t.val - raw| < a.dist
          · by_cases hbd : b.dist < |t.val - raw|
            · have hba : b.dist < a.dist := lt_trans hbd hlt
              simp [snapStep, bestOf, hd, hb, snapMerge, hlt, hbd, hba]
            · simp [snapStep, bestOf, hd, hb, snapMerge, hlt, hbd]
          · by_cases hbd : b.dist < |t.val - raw|
            · simp [snapStep, bestOf, hd, hb, snapMerge, hlt, hbd]
            · have hab : ¬ b.dist < a.dist := by
                push_neg at hlt hbd ⊢
                linarith
              simp [snapStep, bestOf, hd, hb, snapMerge, hlt, hbd, hab]
    · have hstep : snapStep raw acc t = acc := by
        cases acc <;> simp [snapStep, hd]
      rw [hstep]
      have hbest : bestOf raw (t :: ts) = bestOf raw ts := by
        simp [bestOf, hd]
      rw [hbest]

/-- Auxiliary for C4: when the scan finds nothing, every candidate is
beyond the threshold. -/
theorem bestOf_none (raw : ℚ) :
    ∀ ts : List SnapTarget, bestOf raw ts = none →
      ∀ t ∈ ts, ¬(|t.val - raw| ≤ snapThreshold) := by
  intro ts
  induction ts with
  | nil => intro _ t ht; cases ht
  | cons t ts ih =>
    intro h u hu
    by_cases hd : |t.val - raw| ≤ snapThreshold
    · exfalso
      cases hb : bestOf raw ts with
      | none =>
        simp only [bestOf, hd, if_true, hb] at h
        exact Option.noConfusion h
      | some b =>
        simp only [bestOf, hd, if_true, hb] at h
        split_ifs at h
    · simp only [bestOf, hd, if_false] at h
      rcases List.mem_cons.mp hu with rfl | hul
      · exact hd
      · exact ih h u hul

/-- Auxiliary for C4: when the scan finds an accumulator, it is within the
threshold, minimal among all candidates, and the first candidate found by
a search for its distance. -/
theorem bestOf_some (raw : ℚ) :
    ∀ (ts : List SnapTarget) (a : SnapAcc), bestOf raw ts = some a →
      a.dist ≤ snapThreshold ∧ (∀ t ∈ ts, a.dist ≤ |t.val - raw|) ∧
      ∃ tw, ts.find? (fun t => decide (|t.val - raw| = a.dist)) = some tw ∧
        tw.val = a.val ∧ tw.manual = a.manual := by
  intro ts
  induction ts with
  | nil => intro a h; exact Option.noConfusion h
  | cons t ts ih =>
    intro a h
    by_cases hd : |t.val - raw| ≤ snapThreshold
    · cases hb : bestOf raw ts <;> simp only [bestOf, hd, if_true, hb] at h
      · injection h with h
        subst h
        refine ⟨hd, ?_, t, ?_, rfl, rfl⟩
        · intro u hu
          rcases List.mem_cons.mp hu with rfl | hul
          · exact le_refl _
          · exact le_of_lt (lt_of_le_of_lt hd (not_le.mp (bestOf_none raw ts hb u hul)))
        · rw [List.find?_cons_of_pos]
          simp
      · rename_i b
        obtain ⟨hb20, hbmin, tw, hbfind, hbval, hbman⟩ := ih b hb
        split_ifs at h with hlt
        · injection h with h
          subst h
          refine ⟨hb20, ?_, tw, ?_, hbval, hbman⟩
          · intro u hu
            rcases List.mem_cons.mp hu with rfl | hul
            · exact le_of_lt hlt
            · exact hbmin u hul
          · rw [List.find?_cons_of_neg]
            · exact hbfind
            · simp only [decide_eq_true_eq]
              intro heq
              exact absurd (heq ▸ hlt) (lt_irrefl _)
        · injection h with h
          subst h
          refine ⟨hd, ?_, t, ?_, rfl, rfl⟩
          · intro u hu
            rcases List.mem_cons.mp hu with rfl | hul
            · exact le_refl _
            · exact le_trans (not_lt.mp hlt) (hbmin u hul)
          · rw [List.find?_cons_of_pos]
            simp
    · simp only [bestOf, hd, if_false] at h
      obtain ⟨hb20, hbmin, tw, hbfind, hbval, hbman⟩ := ih a h
      refine ⟨hb20, ?_, tw, ?_, hbval, hbman⟩
      · intro u hu
        rcases List.mem_cons.mp hu with rfl | hul
        · exact le_of_lt (lt_of_le_of_lt hb20 (not_le.mp hd))
        · exact hbmin u hul
      · rw [List.find?_cons_of_neg]
        · exact hbfind
        · simp only [decide_eq_true_eq]
          intro heq
          exact hd (heq ▸ hb20)

/-- Auxiliary for C4: the spec-side minimum is `none` only on the empty
candidate list. -/
theorem minDistList_none (raw : ℚ) :
    ∀ ts : List SnapTarget, minDistList raw ts = none → ts = [] := by
  intro ts
  cases ts with
  | nil => intro _; rfl
  | cons t ts =>
    intro h
    exfalso
    cases hm : minDistList raw ts <;> simp only [minDistList, hm] at h <;>
      exact Option.noConfusion h

/-- Auxiliary for C4: the spec-side minimum is attained and is a lower
bound of all candidate distances. -/
theorem minDistList_spec (raw : ℚ) :
    ∀ (ts : List SnapTarget) (m : ℚ), minDistList raw ts = some m →
      (∃ t ∈ ts, |t.val - raw| = m) ∧ ∀ t ∈ ts, m ≤ |t.val - raw| := by
  intro ts
  induction ts with
  | nil => intro m h; exact Option.noConfusion h
  | cons t ts ih =>
    intro m h
    simp only [minDistList] at h
    cases hm : minDistList raw ts <;> rw [hm] at h
    · injection h with h
      subst h
      have hnil := minDistList_none raw ts hm
      subst hnil
      exact ⟨⟨t, by simp⟩, by simp⟩
    · rename_i m'
      injection h with h
      subst h
      obtain ⟨⟨t0, ht0, hd0⟩, hlb⟩ := ih m' hm
      constructor
      · rcases le_total |t.val - raw| m' with hle | hle
        · exact ⟨t, by simp, (min_eq_left hle).symm⟩
        · exact ⟨t0, by simp [ht0], by rw [hd0, min_eq_right hle]⟩
      · intro u hu
        rcases List.mem_cons.mp hu with rfl | hul
        · exact min_le_left _ _
        · exact le_trans (min_le_right _ _) (hlb u hul)

/-- **C4**: placement snapping treats each axis independently as a pure
function of the candidate list: the source's single-pass fold equals the
specification "take the candidate of minimum absolute distance (first one
on ties), snap to it (padding-adjusted for manual elements) exactly when
that minimum is at most the 20-unit threshold, else keep the raw value";
determinism is immediate since both sides are functions of the inputs. -/
theorem C4_snap_refinement :
    ∀ (raw pad : ℚ) (ts : List SnapTarget), snapAxis raw pad ts = specSnapAxis raw pad ts := by
  intro raw pad ts
  rw [snapAxis, foldl_snapStep_eq raw ts none]
  have hm : snapMerge none (bestOf raw ts) = bestOf raw ts := by
    cases bestOf raw ts <;> rfl
  rw [hm]
  cases hb : bestOf raw ts with
  | none =>
    cases hts : minDistList raw ts with
    | none => simp [specSnapAxis, hts]
    | some m =>
      obtain ⟨⟨t0, ht0, hd0⟩, _⟩ := minDistList_spec raw ts m hts
      have hgt : ¬ m ≤ snapThreshold := by
        rw [← hd0]
        exact bestOf_none raw ts hb t0 ht0
      simp [specSnapAxis, hts, hgt]
  | some a =>
    obtain ⟨ha20, hmin, tw, hfind, hval, hman⟩ := bestOf_some raw ts a hb
    have htw := List.mem_of_find?_eq_some hfind
    have hpred :=
      @List.find?_some SnapTarget (fun t => decide (|t.val - raw| = a.dist)) tw ts hfind
    have hdist_tw : |tw.val - raw| = a.dist := of_decide_eq_true hpred
    cases hts : minDistList raw ts with
    | none =>
      exact absurd (minDistList_none raw ts hts ▸ htw) (List.not_mem_nil tw)
    | some m =>
      obtain ⟨⟨t0, ht0, hd0⟩, hlb⟩ := minDistList_spec raw ts m hts
      have hma : m = a.dist := by
        have h1 : m ≤ a.dist := hdist_tw ▸ hlb tw htw
        have h2 : a.dist ≤ m := hd0 ▸ hmin t0 ht0
        linarith
      subst hma
      simp only [specSnapAxis, hts, ha20, if_true, hfind]
      rw [hval, hman]

end FormPdf
